import Mathlib

/-!
Verification of the genomic visualization data-assembly layer of the
ofc-svexplorer dashboard.

The Lean definitions below are a shallow embedding of the Python source:

* `src/utils/database.py` — `get_chromosome_size`, the chromosome sorting in
  `get_circos_data`, and `generate_gene_interactions_data`;
* `src/pages/population_svs.py` — `create_parent_track`, `create_child_track`,
  `create_background_track`;
* `src/utils/circos_helpers.py` — `generate_highlights_for_dense_regions`,
  `generate_interaction_heatmap`.

Python strings are modelled by `String`, with the Python string methods
re-implemented by structural recursion over the character list (all data
handled by the program is ASCII, so `str.lower`/`str.upper`/`str.strip`
agree with the ASCII case maps and whitespace trimming used here).
Database result sets are modelled as lists of row structures; a fallible
database call is modelled by `Except String rows`.  SQLite's `LIKE`
operator is case-insensitive on ASCII letters by default (the source sets
no `PRAGMA case_sensitive_like`), and `=` on text uses the binary
collation; both are modelled accordingly.
-/

/-! ### Python string primitives -/

/-- Python `str.lower()` restricted to ASCII input. -/
def pyLower (s : String) : String := ⟨s.data.map Char.toLower⟩

/-- Python `str.upper()` restricted to ASCII input. -/
def pyUpper (s : String) : String := ⟨s.data.map Char.toUpper⟩

/-- Python `s.startswith(pre)`. -/
def strStartsWith (s pre : String) : Bool := pre.data.isPrefixOf s.data

/-- Python slicing `s[n:]`. -/
def strDrop (s : String) (n : Nat) : String := ⟨s.data.drop n⟩

/-- Python `str.strip()` on ASCII input: drop whitespace from both ends. -/
def pyStrip (s : String) : String :=
  ⟨((s.data.dropWhile Char.isWhitespace).reverse.dropWhile Char.isWhitespace).reverse⟩

/-- Python `str.isdigit()` on ASCII input: non-empty and all digits. -/
def pyIsDigit (s : String) : Bool := !s.isEmpty && s.data.all Char.isDigit

/-- Python `int(s)` for a string of decimal digits (only used under a
`pyIsDigit` guard, matching the source). -/
def digitsToNat : List Char → Nat → Nat
  | [], acc => acc
  | c :: rest, acc => digitsToNat rest (acc * 10 + (c.toNat - '0'.toNat))

/-- Python `int(s)` on an all-digit string. -/
def pyInt (s : String) : Nat := digitsToNat s.data 0

/-- Helper for substring search over character lists. -/
def hasSubList (needle : List Char) : List Char → Bool
  | [] => needle.isEmpty
  | c :: rest => needle.isPrefixOf (c :: rest) || hasSubList needle rest

/-- Python `needle in hay` on strings (substring containment). -/
def pyContains (needle hay : String) : Bool := hasSubList needle.data hay.data

/-- Split a character list at every occurrence of a separator character
(Python `str.split(sep)` semantics: empty pieces are kept). -/
def splitListOn (sep : Char) : List Char → List (List Char)
  | [] => [[]]
  | c :: rest =>
    if c = sep then [] :: splitListOn sep rest
    else match splitListOn sep rest with
      | h :: t => (c :: h) :: t
      | [] => [[c]]

/-- Python `s.split(',')`. -/
def pySplitComma (s : String) : List String := (splitListOn ',' s.data).map (fun l => ⟨l⟩)

/-- Pieces of a character list cut at every whitespace character. -/
def pySplitWsChunks : List Char → List (List Char)
  | [] => [[]]
  | c :: rest =>
    if c.isWhitespace then [] :: pySplitWsChunks rest
    else match pySplitWsChunks rest with
      | h :: t => (c :: h) :: t
      | [] => [[c]]

/-- Python `str.split()` with no argument: split on whitespace, dropping
empty pieces. -/
def pySplitWs (s : String) : List String :=
  ((pySplitWsChunks s.data).filter (fun l => !l.isEmpty)).map (fun l => ⟨l⟩)

/-- Python `s.replace('chr', '')`: remove every occurrence of `"chr"`,
scanning left to right (specialised to the constant pattern used by the
source). -/
def removeChr : List Char → List Char
  | 'c' :: 'h' :: 'r' :: rest => removeChr rest
  | c :: rest => c :: removeChr rest
  | [] => []

/-- One step of insertion-ordered deduplication: append a key unless it is
already present. -/
def dedupStep (acc : List String) (i : String) : List String :=
  if i ∈ acc then acc else acc ++ [i]

/-- Keys of a Python dict in insertion order: first occurrence of each value
in the given list, in order of first appearance. -/
def dedupIds (l : List String) : List String :=
  l.foldl dedupStep []

/-! ### Chromosome Registry (`get_chromosome_size`, database.py lines 864-939) -/

/-- A Python value passed as the `chrom` argument: the function is total over
arbitrary inputs, so we model strings, integers and `None`. -/
inductive PyVal where
  | str (s : String)
  | int (n : Int)
  | pynone
  deriving DecidableEq

/-- Test whether a `PyVal` is a Python string. -/
def PyVal.isStr : PyVal → Bool
  | .str _ => true
  | _ => false

/-- The fixed table `sizes` of approximate human chromosome lengths. -/
def chromSizes : List (String × Nat) :=
  [("1", 248956422), ("2", 242193529), ("3", 198295559), ("4", 190214555),
   ("5", 181538259), ("6", 170805979), ("7", 159345973), ("8", 145138636),
   ("9", 138394717), ("10", 133797422), ("11", 135086622), ("12", 133275309),
   ("13", 114364328), ("14", 107043718), ("15", 101991189), ("16", 90338345),
   ("17", 83257441), ("18", 80373285), ("19", 58617616), ("20", 64444167),
   ("21", 46709983), ("22", 50818468), ("X", 156040895), ("Y", 57227415),
   ("MT", 16569), ("M", 16569)]

/-- Python `k in sizes` / `sizes[k]` on the fixed table. -/
def sizesLookup (k : String) : Option Nat :=
  (chromSizes.find? (fun p => p.1 == k)).map (fun p => p.2)

/-- Strip a leading case-insensitive `"chr"` prefix (`chrom_normalized`). -/
def normalizeChromName (s : String) : String :=
  if strStartsWith (pyLower s) "chr" then strDrop s 3 else s

/-- The list `formats_to_try` built by `get_chromosome_size`. -/
def formatsToTry (s : String) : List String :=
  let n := normalizeChromName s
  [n, pyUpper n, pyLower n, pyStrip n, pyUpper (pyStrip n), pyLower (pyStrip n)]

/-- Shallow embedding of `get_chromosome_size` (database.py lines 864-939).
Non-string inputs skip normalization entirely and fall through to the
default.  The `M`/`MT` special case returns `sizes['MT'] = 16569`. -/
def get_chromosome_size : PyVal → Nat
  | .str s =>
    match (formatsToTry s).find? (fun f => (sizesLookup f).isSome) with
    | some f => (sizesLookup f).getD 100000000
    | none =>
      if pyUpper (normalizeChromName s) = "M" ∨ pyUpper (normalizeChromName s) = "MT"
      then 16569
      else 100000000
  | _ => 100000000

/-! ### Claims C5, C6, C10 -/

/-- C5: the chromosome-size lookup is invariant under name normalization: the
variants `"1"`, `"chr1"`, `"CHR1"` and `" 1 "` all resolve to the same
integer, the table entry for chromosome 1. -/
theorem chromosome_size_normalization_invariant :
    get_chromosome_size (.str "1") = 248956422 ∧
    get_chromosome_size (.str "chr1") = 248956422 ∧
    get_chromosome_size (.str "CHR1") = 248956422 ∧
    get_chromosome_size (.str " 1 ") = 248956422 := by
  refine ⟨?_, ?_, ?_, ?_⟩ <;> rfl

/-- C6: for every chromosome name string for which all normalization attempts
miss the fixed size table, `get_chromosome_size` returns exactly 100000000
(and, being a total function, never raises). -/
theorem get_chromosome_size_default (s : String)
    (h : ∀ f ∈ formatsToTry s, sizesLookup f = none) :
    get_chromosome_size (.str s) = 100000000 := by
  have hfind : (formatsToTry s).find? (fun f => (sizesLookup f).isSome) = none := by
    apply List.find?_eq_none.mpr
    intro x hx
    simp [h x hx]
  have hm : pyUpper (normalizeChromName s) ∈ formatsToTry s := by
    simp [formatsToTry]
  have hM : pyUpper (normalizeChromName s) ≠ "M" := by
    intro hEq
    have hnone := h _ hm
    rw [hEq] at hnone
    simp [sizesLookup, chromSizes] at hnone
  have hMT : pyUpper (normalizeChromName s) ≠ "MT" := by
    intro hEq
    have hnone := h _ hm
    rw [hEq] at hnone
    simp [sizesLookup, chromSizes] at hnone
  simp [get_chromosome_size, hfind, hM, hMT]

/-- Witness for C6: the garbage name `"banana"` falls back to the default. -/
theorem get_chromosome_size_default_witness :
    get_chromosome_size (.str "banana") = 100000000 :=
  get_chromosome_size_default "banana" (by decide)

/-- C10: for every input that is not a string (integer, `None`),
`get_chromosome_size` skips normalization and returns the default 100000000. -/
theorem get_chromosome_size_nonstring (v : PyVal) (h : v.isStr = false) :
    get_chromosome_size v = 100000000 := by
  cases v with
  | str s => simp [PyVal.isStr] at h
  | int n => rfl
  | pynone => rfl

/-- Witness for C10: the integer input `5` yields the default size. -/
theorem get_chromosome_size_nonstring_witness :
    get_chromosome_size (.int 5) = 100000000 :=
  get_chromosome_size_nonstring (.int 5) rfl

/-! ### Circos Data Assembler: chromosome ordering (`get_circos_data`, database.py lines 361-390) -/

/-- The styling constant `UCONN_NAVY` (styling.py). -/
def UCONN_NAVY : String := "#02254B"

/-- The styling constant `UCONN_LIGHT_BLUE` (styling.py). -/
def UCONN_LIGHT_BLUE : String := "#9ECEEB"

/-- The sort key used by `get_circos_data`: numeric chromosomes sort by
value, then `X` (99), then `Y` (100), then everything else (101).  Mirrors
`int(c.replace('chr', '')) if ... else (99 if ... else (100 if ... else 101))`. -/
def chromKey (c : String) : Nat :=
  let r : String := ⟨removeChr c.data⟩
  if pyIsDigit r then pyInt r
  else if pyUpper r = "X" then 99
  else if pyUpper r = "Y" then 100
  else 101

/-- Python `sorted(chromosomes, key=chromKey)`: a stable comparison sort on
the key, modelled by insertion sort (also stable). -/
def sortChromosomes (cs : List String) : List String :=
  List.insertionSort (fun a b => chromKey a ≤ chromKey b) cs

/-- One entry of the Circos `layout_data` list (the interactive metadata
fields, constant in the source, are omitted). -/
structure LayoutEntry where
  id : String
  label : String
  color : String
  len : Nat
  deriving DecidableEq

/-- The layout-building loop of `get_circos_data`: one entry per selected
chromosome, in sorted order, sized via the Registry. -/
def get_circos_layout (chromosomes : List String) : List LayoutEntry :=
  (sortChromosomes chromosomes).map (fun chrom =>
    let displayLabel := if strStartsWith (pyLower chrom) "chr" then strDrop chrom 3 else chrom
    { id := chrom, label := "Chr " ++ displayLabel, color := UCONN_NAVY,
      len := get_chromosome_size (.str chrom) })

/-! ### Claim C4 -/

/-- C4: the Circos data assembler sorts any chromosome selection by the
numeric-then-X-then-Y-then-other ordering rule before building the layout
(the result is sorted by the key and is a permutation of the selection), and
for the selection `{"chr2", "chr1", "chrX", "chr10"}` — in whatever iteration
order the set yields it — the layout order is `chr1, chr2, chr10, chrX`. -/
theorem circos_chromosome_ordering :
    (∀ cs : List String,
      List.Sorted (fun a b => chromKey a ≤ chromKey b) (sortChromosomes cs)) ∧
    (∀ cs : List String, (sortChromosomes cs).Perm cs) ∧
    (∀ cs : List String, cs.Perm ["chr2", "chr1", "chrX", "chr10"] →
      (get_circos_layout cs).map LayoutEntry.id = ["chr1", "chr2", "chr10", "chrX"]) := by
  haveI : IsTotal String (fun a b => chromKey a ≤ chromKey b) :=
    ⟨fun a b => Nat.le_total _ _⟩
  haveI : IsTrans String (fun a b => chromKey a ≤ chromKey b) :=
    ⟨fun _ _ _ => Nat.le_trans⟩
  refine ⟨?_, ?_, ?_⟩
  · intro cs
    exact List.sorted_insertionSort _ cs
  · intro cs
    exact List.perm_insertionSort _ cs
  · intro cs h
    haveI : IsAntisymm String (fun a b => chromKey a < chromKey b ∨ a = b) := by
      constructor
      intro a b hab hba
      rcases hab with hab | hab
      · rcases hba with hba | hba
        · exact absurd (hab.trans hba) (lt_irrefl _)
        · exact hba.symm
      · exact hab
    have hperm : (sortChromosomes cs).Perm ["chr2", "chr1", "chrX", "chr10"] :=
      (List.perm_insertionSort _ cs).trans h
    have hle : List.Sorted (fun a b => chromKey a ≤ chromKey b) (sortChromosomes cs) :=
      List.sorted_insertionSort _ cs
    have hknd : ((sortChromosomes cs).map chromKey).Nodup := by
      have hpm : ((sortChromosomes cs).map chromKey).Perm
          ((["chr2", "chr1", "chrX", "chr10"] : List String).map chromKey) :=
        hperm.map chromKey
      have hnd : ((["chr2", "chr1", "chrX", "chr10"] : List String).map chromKey).Nodup := by
        decide
      exact hpm.nodup_iff.mpr hnd
    have hne : (sortChromosomes cs).Pairwise (fun a b => chromKey a ≠ chromKey b) :=
      (List.pairwise_map).mp hknd
    have hlt : List.Sorted (fun a b => chromKey a < chromKey b ∨ a = b)
        (sortChromosomes cs) := by
      refine (hle.and hne).imp ?_
      intro a b hab
      exact Or.inl (lt_of_le_of_ne hab.1 hab.2)
    have htgt : List.Sorted (fun a b => chromKey a < chromKey b ∨ a = b)
        (["chr1", "chr2", "chr10", "chrX"] : List String) := by
      decide
    have hsorted : sortChromosomes cs = ["chr1", "chr2", "chr10", "chrX"] := by
      refine List.eq_of_perm_of_sorted ?_ hlt htgt
      refine hperm.trans ?_
      decide
    unfold get_circos_layout
    rw [hsorted]
    rfl

/-- Witness for C4: the selection in its listed order sorts to
`chr1, chr2, chr10, chrX`. -/
theorem circos_chromosome_ordering_witness :
    (get_circos_layout ["chr2", "chr1", "chrX", "chr10"]).map LayoutEntry.id
      = ["chr1", "chr2", "chr10", "chrX"] :=
  circos_chromosome_ordering.2.2 _ (List.Perm.refl _)

/-! ### Gene Interaction Resolver (`generate_gene_interactions_data`, database.py lines 686-862) -/

/-- A row of the `genes` table. -/
structure Gene where
  id : String
  chrom : String
  x1 : Int
  x2 : Int
  deriving DecidableEq

/-- One endpoint dict (`source` / `target`) of a chord. -/
structure ChordEnd where
  id : String
  start : Int
  end_ : Int
  gene_id : String
  deriving DecidableEq

/-- One chord emitted by the resolver. -/
structure ChordEdge where
  source : ChordEnd
  target : ChordEnd
  color : String
  value : Nat
  source_gene : String
  target_gene : String
  deriving DecidableEq

/-- A row of the side table `assets/table.csv`; `none` models a NaN
`Interaction_partner(s)` cell. -/
structure TableRow where
  gene : String
  partners : Option String
  deriving DecidableEq

/-- Python `max(0, x)` on integers. -/
def pyMax (a b : Int) : Int := if a ≤ b then b else a

/-- SQLite `id LIKE 'pref%'` under the default `LIKE` semantics: pattern
matching is case-insensitive for ASCII letters (the source sets no
`PRAGMA case_sensitive_like`). -/
def sqlLikePrefMatch (pref s : String) : Bool :=
  (pyUpper pref).data.isPrefixOf (pyUpper s).data

/-- The 2 Mb padding added to each side of a chord for visibility. -/
def PADDING : Int := 2000000

/-- Build one chord between a source and a target gene, with symmetric 2 Mb
padding clamped at 0 (database.py lines 777-802 and 826-851). -/
def mkChord (color : String) (src tgt : Gene) : ChordEdge :=
  { source := { id := src.chrom, start := pyMax 0 (src.x1 - PADDING),
                end_ := src.x2 + PADDING, gene_id := src.id },
    target := { id := tgt.chrom, start := pyMax 0 (tgt.x1 - PADDING),
                end_ := tgt.x2 + PADDING, gene_id := tgt.id },
    color := color, value := 1, source_gene := src.id, target_gene := tgt.id }

/-- Resolve one partner token for a given source gene (database.py lines
755-851): a token containing `"family"` becomes a leading-word `LIKE`
lookup emitting one chord per matching gene on a selected chromosome; any
other token is an exact (`=`, binary collation) single lookup. -/
def resolvePartner (genes : List Gene) (chromosomes : List String)
    (src : Gene) (partner : String) : List ChordEdge :=
  if pyContains "family" (pyLower partner) = true then
    let famPref := (pySplitWs partner).headD ""
    let familyGenes := genes.filter (fun g => sqlLikePrefMatch famPref g.id)
    (familyGenes.filter (fun g => chromosomes.contains g.chrom)).map
      (mkChord UCONN_LIGHT_BLUE src)
  else
    match genes.find? (fun g => g.id == partner) with
    | none => []
    | some tgt =>
      if chromosomes.contains tgt.chrom then [mkChord UCONN_NAVY src tgt] else []

/-- Process one row of the side table: skip missing/`"-"`/empty partner
cells, look up the source gene, apply the source-chromosome filter, then
resolve each comma-separated, stripped partner token. -/
def resolveRow (genes : List Gene) (chromosomes : List String)
    (row : TableRow) : List ChordEdge :=
  match row.partners with
  | none => []
  | some ps =>
    if ps = "-" ∨ ps = "" then []
    else
      match genes.find? (fun g => g.id == row.gene) with
      | none => []
      | some src =>
        if chromosomes.contains src.chrom then
          ((pySplitComma ps).map pyStrip).flatMap (resolvePartner genes chromosomes src)
        else []

/-- Shallow embedding of `generate_gene_interactions_data`: the gene
registry and the side table stand for the database and `table.csv`. -/
def generate_gene_interactions_data (genes : List Gene) (tbl : List TableRow)
    (chromosomes : List String) : List ChordEdge :=
  tbl.flatMap (resolveRow genes chromosomes)

/-! ### Claim C3 -/

/-- C3: every chord produced by the resolver has both padded starts clamped
at zero: `source.start ≥ 0` and `target.start ≥ 0`. -/
theorem chord_padding_clamped (genes : List Gene) (tbl : List TableRow)
    (chromosomes : List String) (e : ChordEdge)
    (he : e ∈ generate_gene_interactions_data genes tbl chromosomes) :
    0 ≤ e.source.start ∧ 0 ≤ e.target.start := by
  have hmk : ∀ (c : String) (s t : Gene),
      0 ≤ (mkChord c s t).source.start ∧ 0 ≤ (mkChord c s t).target.start := by
    intro c s t
    constructor <;>
      · show (0 : Int) ≤ pyMax 0 _
        unfold pyMax
        split
        · assumption
        · exact le_refl 0
  simp only [generate_gene_interactions_data, List.mem_flatMap] at he
  obtain ⟨row, _, he⟩ := he
  simp only [resolveRow] at he
  split at he
  · simp at he
  · split at he
    · simp at he
    · split at he
      · simp at he
      · split at he
        · simp only [List.mem_flatMap] at he
          obtain ⟨p, _, he⟩ := he
          simp only [resolvePartner] at he
          split at he
          · simp only [List.mem_map] at he
            obtain ⟨g, _, rfl⟩ := he
            exact hmk _ _ _
          · split at he
            · simp at he
            · split at he
              · simp only [List.mem_singleton] at he
                subst he
                exact hmk _ _ _
              · simp at he
        · simp at he

/-- Witness for C3: a concrete single-row table whose gene starts lie well
below the 2 Mb padding still yields nonnegative padded starts. -/
theorem chord_padding_clamped_witness :
    0 ≤ (mkChord UCONN_NAVY ⟨"FOXE1", "chr1", 100, 200⟩
          ⟨"PAX9", "chr1", 500, 600⟩).source.start ∧
    0 ≤ (mkChord UCONN_NAVY ⟨"FOXE1", "chr1", 100, 200⟩
          ⟨"PAX9", "chr1", 500, 600⟩).target.start :=
  chord_padding_clamped
    [⟨"FOXE1", "chr1", 100, 200⟩, ⟨"PAX9", "chr1", 500, 600⟩]
    [⟨"FOXE1", some "PAX9"⟩]
    ["chr1"] _ (by decide)

/-! ### Claim C2 -/

/-- C2 (amended): for a partner token containing `"family"`, the resolver
takes the leading word as a prefix and emits exactly one chord per gene
whose id matches that prefix under SQLite's default `LIKE` semantics — a
case-insensitive (ASCII) prefix match, not a case-sensitive one — and whose
chromosome is selected, in registry order; for a token without `"family"`
it performs a single exact lookup (at most one chord), and an unmatched
token is skipped silently (empty result, no failure). -/
theorem gene_resolver_partner_matching (genes : List Gene)
    (chromosomes : List String) (src : Gene) (partner : String) :
    (pyContains "family" (pyLower partner) = true →
      (resolvePartner genes chromosomes src partner).map ChordEdge.target_gene
        = (genes.filter (fun g =>
            chromosomes.contains g.chrom
              && sqlLikePrefMatch ((pySplitWs partner).headD "") g.id)).map Gene.id)
    ∧ (pyContains "family" (pyLower partner) = false →
        (resolvePartner genes chromosomes src partner).length ≤ 1
        ∧ ((∀ g ∈ genes, g.id ≠ partner) →
            resolvePartner genes chromosomes src partner = [])) := by
  constructor
  · intro hfam
    unfold resolvePartner
    rw [if_pos hfam]
    dsimp only
    rw [List.filter_filter, List.map_map]
    rfl
  · intro hfam
    unfold resolvePartner
    rw [if_neg (by simp [hfam])]
    constructor
    · split
      · simp
      · split <;> simp
    · intro hnone
      split
      · rfl
      · rename_i tgt hfound
        exfalso
        have hmem : tgt ∈ genes := List.mem_of_find?_eq_some hfound
        have hpred := List.find?_some hfound
        exact hnone tgt hmem (by simpa using hpred)

/-- Witness for C2: the spec's own example — registry `SMAD1`, `SMAD2`,
`SMADX`, `SMADERELLA` with partner token `"SMAD family"` — emits one chord
per prefix match on a selected chromosome. -/
theorem gene_resolver_partner_matching_witness :
    (resolvePartner
        [⟨"SMAD1", "chr1", 100, 200⟩, ⟨"SMAD2", "chr1", 300, 400⟩,
         ⟨"SMADX", "chr2", 500, 600⟩, ⟨"SMADERELLA", "chr1", 700, 800⟩,
         ⟨"PAX9", "chr1", 900, 950⟩]
        ["chr1", "chr2"] ⟨"FOXE1", "chr1", 10, 20⟩ "SMAD family").map ChordEdge.target_gene
      = ([⟨"SMAD1", "chr1", 100, 200⟩, ⟨"SMAD2", "chr1", 300, 400⟩,
          ⟨"SMADX", "chr2", 500, 600⟩, ⟨"SMADERELLA", "chr1", 700, 800⟩,
          ⟨"PAX9", "chr1", 900, 950⟩].filter (fun g =>
            ["chr1", "chr2"].contains g.chrom
              && sqlLikePrefMatch ((pySplitWs "SMAD family").headD "") g.id)).map Gene.id :=
  (gene_resolver_partner_matching _ _ _ _).1 (by decide)

/-- Counterexample for C2 as stated: with a registry holding only the
lower-case gene `"smad1"`, the token `"SMAD family"` still emits a chord —
the `LIKE` prefix match is case-insensitive, while a case-sensitive prefix
match (Python `startswith`, as the claim states) finds nothing. -/
theorem gene_resolver_case_sensitivity_cex :
    (resolvePartner [⟨"smad1", "chr1", 3000000, 3000500⟩] ["chr1"]
        ⟨"FOXE1", "chr1", 100, 200⟩ "SMAD family").map ChordEdge.target_gene = ["smad1"]
    ∧ strStartsWith "smad1" "SMAD" = false
    ∧ ([⟨"smad1", "chr1", 3000000, 3000500⟩] : List Gene).filter
        (fun g => strStartsWith g.id "SMAD") = [] := by
  refine ⟨?_, ?_, ?_⟩ <;> decide

/-! ### Track Builders (population_svs.py lines 188-495) -/

/-- A row of the parent-track query result (phenotype_svs joined with
phenotype, filtered on chromosome, gender and `child = 0`, ordered by
start). -/
structure ParentRow where
  sample : String
  id : String
  type : String
  chrom : String
  start : Int
  end_ : Int
  length : Int
  deriving DecidableEq

/-- A row of the child-track query result (additionally carrying the
`affected` and `proband` flags, stored as SQLite integers). -/
structure ChildRow where
  sample : String
  id : String
  type : String
  chrom : String
  start : Int
  end_ : Int
  length : Int
  affected : Int
  proband : Int
  deriving DecidableEq

/-- A row of the background-track query over `background_svs`.  The
`freq`, `pop_code` and `superpop_code` columns are used only through
Python truthiness and string interpolation, so they are modelled as
optional rendered strings (`none` for a falsy cell). -/
structure BgRow where
  id : String
  type : String
  chrom : String
  start : Int
  end_ : Int
  length : Int
  freq : Option String
  pheno : Option String
  gender : Option String
  pop_code : Option String
  superpop_code : Option String
  deriving DecidableEq

/-- One feature dict of an IGV annotation track. -/
structure Feature where
  chr : String
  start : Int
  end_ : Int
  name : String
  description : String
  type : String
  deriving DecidableEq

/-- An IGV track dict. -/
structure Track where
  name : String
  sourceType : String
  format : String
  features : List Feature
  displayMode : String
  color : String
  height : Nat
  deriving DecidableEq

/-- The parent-track feature description
`f"Type: {t}<br>Count: {count}<br>Size: {end - start} bp"`. -/
def parentDescription (t : String) (count : Nat) (size : Int) : String :=
  "Type: " ++ t ++ "<br>Count: " ++ toString count ++ "<br>Size: " ++ toString size ++ " bp"

/-- The dedup-and-count feature construction shared by the three track
builders: one feature per distinct SV id in first-occurrence order, built
from the first row carrying that id. -/
def dedupFeatures {α : Type} (rid : α → String) (mk : String → α → Feature)
    (rows : List α) : List Feature :=
  (dedupIds (rows.map rid)).filterMap (fun svId =>
    (rows.find? (fun r => rid r == svId)).map (mk svId))

/-- Feature construction of `create_parent_track` (population_svs.py lines
214-249): details from the first occurrence, count over all occurrences. -/
def parentFeatures (rows : List ParentRow) : List Feature :=
  dedupFeatures ParentRow.id (fun svId d =>
    { chr := d.chrom, start := d.start, end_ := d.end_, name := svId,
      description := parentDescription d.type
        (rows.countP (fun r => r.id == svId)) (d.end_ - d.start),
      type := d.type }) rows

/-- Status labels contributed by one child row. -/
def rowStatus (r : ChildRow) : List String :=
  (if r.affected = 1 then ["Affected"] else []) ++
  (if r.proband = 1 then ["Proband"] else [])

/-- The status set accumulated for one SV id across all its child rows
(`sv_statuses`).  CPython iterates its `set` in an implementation-defined
order; the model fixes first-insertion order, on which no claim depends. -/
def svStatuses (rows : List ChildRow) (svId : String) : List String :=
  dedupIds ((rows.filter (fun r => r.id == svId)).flatMap rowStatus)

/-- The `status_str` fragment of a child feature description. -/
def statusStr (statuses : List String) : String :=
  if statuses = [] then "" else "Status: " ++ String.intercalate ", " statuses ++ "<br>"

/-- The child-track feature description
`f"Type: {t}<br>{status_str}Count: {count}<br>Size: {end - start} bp"`. -/
def childDescription (t st : String) (count : Nat) (size : Int) : String :=
  "Type: " ++ t ++ "<br>" ++ st ++ "Count: " ++ toString count ++ "<br>Size: " ++ toString size ++ " bp"

/-- Feature construction of `create_child_track` (population_svs.py lines
306-360). -/
def childFeatures (rows : List ChildRow) : List Feature :=
  dedupFeatures ChildRow.id (fun svId d =>
    { chr := d.chrom, start := d.start, end_ := d.end_, name := svId,
      description := childDescription d.type (statusStr (svStatuses rows svId))
        (rows.countP (fun r => r.id == svId)) (d.end_ - d.start),
      type := d.type }) rows

/-- Population labels contributed by one background row (`pop_info`). -/
def rowPopInfo (r : BgRow) : List String :=
  (match r.pop_code with | some v => ["Pop: " ++ v] | none => []) ++
  (match r.superpop_code with | some v => ["SuperPop: " ++ v] | none => []) ++
  (match r.freq with | some v => ["Freq: " ++ v] | none => [])

/-- The population-info set accumulated for one SV id (`sv_pop_info`),
modelled in first-insertion order like `svStatuses`. -/
def svPopInfo (rows : List BgRow) (svId : String) : List String :=
  dedupIds ((rows.filter (fun r => r.id == svId)).flatMap rowPopInfo)

/-- The `pop_str` fragment of a background feature description (the
source's `"".replace(',', '<br>')` in the empty branch is the constant
`""`). -/
def popStr (l : List String) : String :=
  if l = [] then "" else String.intercalate "," l ++ "<br>"

/-- The background-track feature description. -/
def bgDescription (t ps : String) (count : Nat) (size : Int) : String :=
  "Type: " ++ t ++ "<br>" ++ ps ++ "Count: " ++ toString count ++ "<br>Size: " ++ toString size ++ " bp"

/-- Feature construction of `create_background_track` (population_svs.py
lines 405-468). -/
def backgroundFeatures (rows : List BgRow) : List Feature :=
  dedupFeatures BgRow.id (fun svId d =>
    { chr := d.chrom, start := d.start, end_ := d.end_, name := svId,
      description := bgDescription d.type (popStr (svPopInfo rows svId))
        (rows.countP (fun r => r.id == svId)) (d.end_ - d.start),
      type := d.type }) rows

/-- Shallow embedding of `create_parent_track`: the query result (or a
database error covering any exception in the `try` block) is the input;
the chromosome and gender filters live in the SQL query producing it. -/
def create_parent_track (gender name : String)
    (queryResult : Except String (List ParentRow)) : Track :=
  match queryResult with
  | .ok rows =>
    { name := name, sourceType := "annotation", format := "bed",
      features := parentFeatures rows, displayMode := "EXPANDED",
      color := if gender = "F" then "#CC3366" else "#3366CC", height := 100 }
  | .error _ =>
    { name := name, sourceType := "annotation", format := "bed",
      features := [], displayMode := "EXPANDED",
      color := if gender = "F" then "#CC3366" else "#3366CC", height := 100 }

/-- Shallow embedding of `create_child_track`. -/
def create_child_track (queryResult : Except String (List ChildRow)) : Track :=
  match queryResult with
  | .ok rows =>
    { name := "Children (Combined)", sourceType := "annotation", format := "bed",
      features := childFeatures rows, displayMode := "EXPANDED",
      color := UCONN_NAVY, height := 100 }
  | .error _ =>
    { name := "Children (Combined)", sourceType := "annotation", format := "bed",
      features := [], displayMode := "EXPANDED",
      color := UCONN_NAVY, height := 100 }

/-- Shallow embedding of `create_background_track`. -/
def create_background_track (queryResult : Except String (List BgRow)) : Track :=
  match queryResult with
  | .ok rows =>
    { name := "Background Reference SVs", sourceType := "annotation", format := "bed",
      features := backgroundFeatures rows, displayMode := "EXPANDED",
      color := "#669900", height := 100 }
  | .error _ =>
    { name := "Background Reference SVs", sourceType := "annotation", format := "bed",
      features := [], displayMode := "EXPANDED",
      color := "#669900", height := 100 }

/-! ### Dedup lemmas -/

/-- Membership in the dedup fold: an id appears iff it was in the
accumulator or in the remaining input. -/
theorem mem_foldl_dedupStep (l : List String) :
    ∀ (acc : List String) (a : String),
      (a ∈ l.foldl dedupStep acc ↔ a ∈ acc ∨ a ∈ l) := by
  induction l with
  | nil => intro acc a; simp
  | cons x xs ih =>
    intro acc a
    rw [List.foldl_cons, ih]
    unfold dedupStep
    by_cases hx : x ∈ acc
    · rw [if_pos hx]
      constructor
      · rintro (h | h)
        · exact Or.inl h
        · exact Or.inr (List.mem_cons_of_mem _ h)
      · rintro (h | h)
        · exact Or.inl h
        · rcases List.mem_cons.mp h with rfl | h
          · exact Or.inl hx
          · exact Or.inr h
    · rw [if_neg hx]
      simp only [List.mem_append, List.mem_singleton, List.mem_cons]
      tauto

/-- An id appears in `dedupIds l` iff it appears in `l`. -/
theorem dedupIds_mem (l : List String) (a : String) : a ∈ dedupIds l ↔ a ∈ l := by
  rw [dedupIds, mem_foldl_dedupStep]
  simp

/-- The dedup fold preserves freedom from duplicates. -/
theorem nodup_foldl_dedupStep (l : List String) :
    ∀ acc : List String, acc.Nodup → (l.foldl dedupStep acc).Nodup := by
  induction l with
  | nil => intro acc h; exact h
  | cons x xs ih =>
    intro acc h
    rw [List.foldl_cons]
    apply ih
    unfold dedupStep
    by_cases hx : x ∈ acc
    · rw [if_pos hx]; exact h
    · rw [if_neg hx]
      simp [List.nodup_append, h, hx]

/-- `dedupIds` produces a duplicate-free list. -/
theorem dedupIds_nodup (l : List String) : (dedupIds l).Nodup :=
  nodup_foldl_dedupStep l [] List.nodup_nil

/-- The shared dedup-and-count feature construction emits exactly one
feature per distinct id, named by it, and built by `mk` from the first row
carrying that id. -/
theorem dedupFeatures_spec {α : Type} (rid : α → String) (mk : String → α → Feature)
    (hname : ∀ s d, (mk s d).name = s) (rows : List α) :
    (dedupFeatures rid mk rows).map Feature.name = dedupIds (rows.map rid)
    ∧ (dedupFeatures rid mk rows).Forall (fun f =>
        ∃ r, rows.find? (fun x => rid x == f.name) = some r ∧ f = mk f.name r) := by
  have key : ∀ ids : List String,
      (∀ a ∈ ids, (rows.find? (fun x => rid x == a)).isSome) →
      ((ids.filterMap (fun svId =>
          (rows.find? (fun r => rid r == svId)).map (mk svId))).map Feature.name = ids
        ∧ (ids.filterMap (fun svId =>
            (rows.find? (fun r => rid r == svId)).map (mk svId))).Forall (fun f =>
              ∃ r, rows.find? (fun x => rid x == f.name) = some r ∧ f = mk f.name r)) := by
    intro ids
    induction ids with
    | nil => intro _; exact ⟨rfl, trivial⟩
    | cons a t ih =>
      intro hsome
      have ha := hsome a (by simp)
      obtain ⟨r, hr⟩ := Option.isSome_iff_exists.mp ha
      obtain ⟨ih1, ih2⟩ := ih (fun x hx => hsome x (by simp [hx]))
      constructor
      · simp only [List.filterMap_cons, hr, Option.map_some']
        simp [hname, ih1]
      · simp only [List.filterMap_cons, hr, Option.map_some']
        rw [List.forall_cons]
        refine ⟨⟨r, ?_, ?_⟩, ih2⟩
        · rw [hname a r]; exact hr
        · rw [hname a r]
      
  apply key
  intro a ha
  have hmem : a ∈ rows.map rid := (dedupIds_mem _ _).mp ha
  obtain ⟨r, hrmem, rfl⟩ := List.mem_map.mp hmem
  exact List.find?_isSome.mpr ⟨r, hrmem, by simp⟩

/-! ### Claim C1 -/

/-- C1: each of the three track builders emits exactly one feature per
distinct SV id of its result set (in first-occurrence order, with no
duplicate names), keeps the first-seen chromosome/start/end/type for that
id, and annotates the description with a count equal to the number of
contributing rows and a size equal to `end - start` of the kept interval. -/
theorem track_builder_dedup_and_count :
    (∀ rows : List ParentRow,
      (parentFeatures rows).map Feature.name = dedupIds (rows.map ParentRow.id)
      ∧ ((parentFeatures rows).map Feature.name).Nodup
      ∧ (parentFeatures rows).Forall (fun f =>
          ∃ r, rows.find? (fun x => x.id == f.name) = some r
            ∧ f.chr = r.chrom ∧ f.start = r.start ∧ f.end_ = r.end_ ∧ f.type = r.type
            ∧ f.description = parentDescription r.type
                (rows.countP (fun x => x.id == f.name)) (r.end_ - r.start)))
    ∧ (∀ rows : List ChildRow,
      (childFeatures rows).map Feature.name = dedupIds (rows.map ChildRow.id)
      ∧ ((childFeatures rows).map Feature.name).Nodup
      ∧ (childFeatures rows).Forall (fun f =>
          ∃ r, rows.find? (fun x => x.id == f.name) = some r
            ∧ f.chr = r.chrom ∧ f.start = r.start ∧ f.end_ = r.end_ ∧ f.type = r.type
            ∧ f.description = childDescription r.type (statusStr (svStatuses rows f.name))
                (rows.countP (fun x => x.id == f.name)) (r.end_ - r.start)))
    ∧ (∀ rows : List BgRow,
      (backgroundFeatures rows).map Feature.name = dedupIds (rows.map BgRow.id)
      ∧ ((backgroundFeatures rows).map Feature.name).Nodup
      ∧ (backgroundFeatures rows).Forall (fun f =>
          ∃ r, rows.find? (fun x => x.id == f.name) = some r
            ∧ f.chr = r.chrom ∧ f.start = r.start ∧ f.end_ = r.end_ ∧ f.type = r.type
            ∧ f.description = bgDescription r.type (popStr (svPopInfo rows f.name))
                (rows.countP (fun x => x.id == f.name)) (r.end_ - r.start))) := by
  refine ⟨?_, ?_, ?_⟩ <;> intro rows
  · obtain ⟨h1, h2⟩ := dedupFeatures_spec ParentRow.id
      (fun svId d =>
        { chr := d.chrom, start := d.start, end_ := d.end_, name := svId,
          description := parentDescription d.type
            (rows.countP (fun r => r.id == svId)) (d.end_ - d.start),
          type := d.type }) (fun _ _ => rfl) rows
    refine ⟨h1, ?_, ?_⟩
    · unfold parentFeatures
      rw [h1]
      exact dedupIds_nodup _
    · refine List.forall_iff_forall_mem.mpr ?_
      intro f hf
      obtain ⟨r, hr, hfe⟩ := List.forall_iff_forall_mem.mp h2 f hf
      exact ⟨r, hr, by rw [hfe], by rw [hfe], by rw [hfe], by rw [hfe], by rw [hfe]⟩
  · obtain ⟨h1, h2⟩ := dedupFeatures_spec ChildRow.id
      (fun svId d =>
        { chr := d.chrom, start := d.start, end_ := d.end_, name := svId,
          description := childDescription d.type (statusStr (svStatuses rows svId))
            (rows.countP (fun r => r.id == svId)) (d.end_ - d.start),
          type := d.type }) (fun _ _ => rfl) rows
    refine ⟨h1, ?_, ?_⟩
    · unfold childFeatures
      rw [h1]
      exact dedupIds_nodup _
    · refine List.forall_iff_forall_mem.mpr ?_
      intro f hf
      obtain ⟨r, hr, hfe⟩ := List.forall_iff_forall_mem.mp h2 f hf
      exact ⟨r, hr, by rw [hfe], by rw [hfe], by rw [hfe], by rw [hfe], by rw [hfe]⟩
  · obtain ⟨h1, h2⟩ := dedupFeatures_spec BgRow.id
      (fun svId d =>
        { chr := d.chrom, start := d.start, end_ := d.end_, name := svId,
          description := bgDescription d.type (popStr (svPopInfo rows svId))
            (rows.countP (fun r => r.id == svId)) (d.end_ - d.start),
          type := d.type }) (fun _ _ => rfl) rows
    refine ⟨h1, ?_, ?_⟩
    · unfold backgroundFeatures
      rw [h1]
      exact dedupIds_nodup _
    · refine List.forall_iff_forall_mem.mpr ?_
      intro f hf
      obtain ⟨r, hr, hfe⟩ := List.forall_iff_forall_mem.mp h2 f hf
      exact ⟨r, hr, by rw [hfe], by rw [hfe], by rw [hfe], by rw [hfe], by rw [hfe]⟩

/-! ### Claim C9 -/

/-- C9: each track builder always returns a track object — never a
failure — with the name, color and height fields populated regardless of
the query outcome, and on any underlying data error (the `except` branch)
the returned track additionally has an empty features list. -/
theorem track_builders_error_fallback :
    (∀ (gender name : String) (res : Except String (List ParentRow)),
      (create_parent_track gender name res).name = name
      ∧ (create_parent_track gender name res).color
          = (if gender = "F" then "#CC3366" else "#3366CC")
      ∧ (create_parent_track gender name res).height = 100)
    ∧ (∀ (gender name e : String),
      create_parent_track gender name (.error e)
        = { name := name, sourceType := "annotation", format := "bed",
            features := [], displayMode := "EXPANDED",
            color := if gender = "F" then "#CC3366" else "#3366CC", height := 100 })
    ∧ (∀ res : Except String (List ChildRow),
      (create_child_track res).name = "Children (Combined)"
      ∧ (create_child_track res).color = UCONN_NAVY
      ∧ (create_child_track res).height = 100)
    ∧ (∀ e : String,
      create_child_track (.error e)
        = { name := "Children (Combined)", sourceType := "annotation", format := "bed",
            features := [], displayMode := "EXPANDED",
            color := UCONN_NAVY, height := 100 })
    ∧ (∀ res : Except String (List BgRow),
      (create_background_track res).name = "Background Reference SVs"
      ∧ (create_background_track res).color = "#669900"
      ∧ (create_background_track res).height = 100)
    ∧ (∀ e : String,
      create_background_track (.error e)
        = { name := "Background Reference SVs", sourceType := "annotation", format := "bed",
            features := [], displayMode := "EXPANDED",
            color := "#669900", height := 100 }) := by
  refine ⟨?_, ?_, ?_, ?_, ?_, ?_⟩
  · intro gender name res
    cases res <;> exact ⟨rfl, rfl, rfl⟩
  · intro gender name e
    rfl
  · intro res
    cases res <;> exact ⟨rfl, rfl, rfl⟩
  · intro e
    rfl
  · intro res
    cases res <;> exact ⟨rfl, rfl, rfl⟩
  · intro e
    rfl

/-! ### Auxiliary generators (circos_helpers.py) -/

/-- One histogram data point (`block_id` / `position` / `value`). -/
structure HPoint where
  block_id : String
  position : Int
  value : Int
  deriving DecidableEq

/-- One highlight interval emitted by the dense-region highlighter. -/
structure Highlight where
  block_id : String
  start : Int
  end_ : Int
  color : String
  deriving DecidableEq

/-- Python `min(a, b)` on integers. -/
def pyMin (a b : Int) : Int := if a ≤ b then a else b

/-- Python `min` over a non-empty list of integers (`0` for the empty list,
which the source never reaches thanks to its non-empty guard). -/
def listMinInt : List Int → Int
  | [] => 0
  | h :: t => t.foldl pyMin h

/-- Python `max` over a non-empty list of integers. -/
def listMaxInt : List Int → Int
  | [] => 0
  | h :: t => t.foldl pyMax h

/-- The edge-detection loop of `generate_highlights_for_dense_regions`
(circos_helpers.py lines 36-55), carrying `in_dense_region` and
`start_pos` (`0` stands for Python's initial `None`, which is never read
before being set).  The `rest.isEmpty` test is the source's
`i == len(points) - 1`. -/
def scanDense (chrom : String) (threshold : Int) :
    List HPoint → Bool → Int → List Highlight
  | [], _, _ => []
  | p :: rest, inDense, startPos =>
    if p.value > threshold ∧ inDense = false then
      scanDense chrom threshold rest true p.position
    else if (p.value ≤ threshold ∨ rest.isEmpty = true) ∧ inDense = true then
      { block_id := chrom, start := startPos, end_ := p.position,
        color := "rgba(255, 165, 0, 0.3)" }
        :: scanDense chrom threshold rest false startPos
    else
      scanDense chrom threshold rest inDense startPos

/-- The per-chromosome point group, sorted by position (`points.sort`,
a stable sort, modelled by insertion sort). -/
def pointsSortedFor (histogram : List HPoint) (chrom : String) : List HPoint :=
  List.insertionSort (fun p q => p.position ≤ q.position)
    (histogram.filter (fun p => p.block_id == chrom))

/-- The demo fallback of the highlighter: one "middle third" interval per
chromosome group (circos_helpers.py lines 58-75). -/
def fallbackHighlight (histogram : List HPoint) (chrom : String) : List Highlight :=
  let pts := histogram.filter (fun p => p.block_id == chrom)
  match pts with
  | [] => []
  | _ =>
    let minPos := listMinInt (pts.map HPoint.position)
    let maxPos := listMaxInt (pts.map HPoint.position)
    let rangeSize := maxPos - minPos
    [{ block_id := chrom, start := minPos + rangeSize.fdiv 3,
       end_ := maxPos - rangeSize.fdiv 3, color := "rgba(255, 165, 0, 0.3)" }]

/-- Shallow embedding of `generate_highlights_for_dense_regions`
(circos_helpers.py lines 10-77): group by chromosome in first-appearance
order, sort each group by position, run the edge-detection scan, and fall
back to one demo highlight per chromosome when nothing was detected. -/
def generate_highlights_for_dense_regions (histogram : List HPoint)
    (threshold : Int) : List Highlight :=
  let chroms := dedupIds (histogram.map HPoint.block_id)
  let detected := chroms.flatMap (fun c =>
    scanDense c threshold (pointsSortedFor histogram c) false 0)
  if detected.isEmpty = true then chroms.flatMap (fallbackHighlight histogram)
  else detected

/-- One heatmap data point; `value` models the Python float `count /
max_count` as an exact rational. -/
structure HeatPoint where
  block_id : String
  start : Nat
  end_ : Nat
  value : ℚ
  deriving DecidableEq

/-- The interval midpoint `(start + end) // 2` (Python floor division). -/
def chordMidpoint (e : ChordEnd) : Int := (e.start + e.end_).fdiv 2

/-- Python `bins[idx] += 1` for a nonnegative index: walk to the slot and
increment; an index beyond the end leaves the list unchanged (unreachable
here, since bin indices are capped at 19 and the list has 20 slots). -/
def listIncrAux : List Nat → Int → List Nat
  | [], _ => []
  | n :: rest, idx => if idx = 0 then (n + 1) :: rest else n :: listIncrAux rest (idx - 1)

/-- Python `bins[idx] += 1` including negative-index wrap-around.  (For an
index below `-len(bins)` Python raises IndexError; the model leaves the
list unchanged there — the heatmap theorem below only covers chords with
nonnegative midpoints, where the two agree.) -/
def listIncr (l : List Nat) (idx : Int) : List Nat :=
  listIncrAux l (if idx < 0 then idx + l.length else idx)

/-- The bin index `min(num_bins - 1, pos // bin_size)` of one chord
endpoint. -/
def binIdxFor (binSize : Nat) (e : ChordEnd) : Int :=
  pyMin 19 ((chordMidpoint e).fdiv binSize)

/-- One step of the chord-counting loop: bump the source-side bin, then the
target-side bin, each only when that endpoint lies on this chromosome. -/
def heatStep (chrom : String) (binSize : Nat) (bins : List Nat) (c : ChordEdge) : List Nat :=
  let bins1 := if c.source.id == chrom then listIncr bins (binIdxFor binSize c.source) else bins
  if c.target.id == chrom then listIncr bins1 (binIdxFor binSize c.target) else bins1

/-- The per-chromosome bin counts (`bins`), starting from twenty zeroes. -/
def heatChromBins (chord_data : List ChordEdge) (chrom : String) (binSize : Nat) : List Nat :=
  chord_data.foldl (heatStep chrom binSize) (List.replicate 20 0)

/-- Python `max` over a non-empty list of naturals (`max(bins)`). -/
def listMaxNat : List Nat → Nat
  | [] => 0
  | h :: t => t.foldl max h

/-- Python `min` over a non-empty list of naturals. -/
def listMinNat : List Nat → Nat
  | [] => 0
  | h :: t => t.foldl min h

/-- The per-chromosome body of `generate_interaction_heatmap`
(circos_helpers.py lines 161-197): twenty equal-width bins, chord-endpoint
counts, and values `count / max_count` with `max_count = max(bins) if
max(bins) > 0 else 1`. -/
def heatmapForChrom (chord_data : List ChordEdge) (chrom : String) : List HeatPoint :=
  let chromSize := get_chromosome_size (.str chrom)
  let binSize := chromSize / 20
  let bins := heatChromBins chord_data chrom binSize
  let maxCount := if listMaxNat bins > 0 then listMaxNat bins else 1
  bins.enum.map (fun p =>
    { block_id := chrom, start := p.1 * binSize, end_ := (p.1 + 1) * binSize,
      value := (p.2 : ℚ) / (maxCount : ℚ) })

/-- Shallow embedding of `generate_interaction_heatmap`: empty chord data
short-circuits to an empty heatmap; otherwise one block of twenty points
per chromosome.  (The random placeholder branch of the source requires
`heatmap_data` to be empty after the loop, which forces the chromosome
list to be empty as well, so that branch appends nothing and is omitted.) -/
def generate_interaction_heatmap (chromosomes : List String)
    (chord_data : List ChordEdge) : List HeatPoint :=
  if chord_data.isEmpty = true then []
  else chromosomes.flatMap (heatmapForChrom chord_data)

/-- Modelled from the spec's words, for comparison only: min-max
normalization maps a count `x` to `(x - min) / (max - min)`. -/
def minMaxNormalize (bins : List Nat) : List ℚ :=
  let mn := listMinNat bins
  let mx := listMaxNat bins
  bins.map (fun c => ((c : ℚ) - (mn : ℚ)) / ((mx : ℚ) - (mn : ℚ)))

/-! ### Claim C7 -/

/-- Counterexample for C7 as stated: on values `[10, 10, 80, 90, 80, 10]`
at positions `100..600` with threshold 70, the single emitted interval ends
at position 600 — the position of the trailing value 10 (the falling-edge
point) — not at position 500, the position of the last value that is at
least 70. -/
theorem dense_region_highlighter_cex :
    generate_highlights_for_dense_regions
        [⟨"chr1", 100, 10⟩, ⟨"chr1", 200, 10⟩, ⟨"chr1", 300, 80⟩,
         ⟨"chr1", 400, 90⟩, ⟨"chr1", 500, 80⟩, ⟨"chr1", 600, 10⟩] 70
      = [⟨"chr1", 300, 600, "rgba(255, 165, 0, 0.3)"⟩]
    ∧ generate_highlights_for_dense_regions
        [⟨"chr1", 100, 10⟩, ⟨"chr1", 200, 10⟩, ⟨"chr1", 300, 80⟩,
         ⟨"chr1", 400, 90⟩, ⟨"chr1", 500, 80⟩, ⟨"chr1", 600, 10⟩] 70
      ≠ [⟨"chr1", 300, 500, "rgba(255, 165, 0, 0.3)"⟩] := by
  constructor <;> decide

/-- C7 (amended): for the histogram `[10, 10, 80, 90, 80, 10]` at
nondecreasing positions on one chromosome with threshold 70, the
highlighter emits exactly one interval; it starts at the position of the
first value exceeding 70 and ends at the position of the next value at or
below 70 (here the final point), one past the run of high values. -/
theorem dense_region_highlighter_run (p0 p1 p2 p3 p4 p5 : Int)
    (h01 : p0 ≤ p1) (h12 : p1 ≤ p2) (h23 : p2 ≤ p3) (h34 : p3 ≤ p4) (h45 : p4 ≤ p5) :
    generate_highlights_for_dense_regions
        [⟨"chr1", p0, 10⟩, ⟨"chr1", p1, 10⟩, ⟨"chr1", p2, 80⟩,
         ⟨"chr1", p3, 90⟩, ⟨"chr1", p4, 80⟩, ⟨"chr1", p5, 10⟩] 70
      = [⟨"chr1", p2, p5, "rgba(255, 165, 0, 0.3)"⟩] := by
  have hf : List.filter (fun p => p.block_id == "chr1")
      ([⟨"chr1", p0, 10⟩, ⟨"chr1", p1, 10⟩, ⟨"chr1", p2, 80⟩,
        ⟨"chr1", p3, 90⟩, ⟨"chr1", p4, 80⟩, ⟨"chr1", p5, 10⟩] : List HPoint)
      = [⟨"chr1", p0, 10⟩, ⟨"chr1", p1, 10⟩, ⟨"chr1", p2, 80⟩,
         ⟨"chr1", p3, 90⟩, ⟨"chr1", p4, 80⟩, ⟨"chr1", p5, 10⟩] := rfl
  have hs : pointsSortedFor
      [⟨"chr1", p0, 10⟩, ⟨"chr1", p1, 10⟩, ⟨"chr1", p2, 80⟩,
       ⟨"chr1", p3, 90⟩, ⟨"chr1", p4, 80⟩, ⟨"chr1", p5, 10⟩] "chr1"
      = [⟨"chr1", p0, 10⟩, ⟨"chr1", p1, 10⟩, ⟨"chr1", p2, 80⟩,
         ⟨"chr1", p3, 90⟩, ⟨"chr1", p4, 80⟩, ⟨"chr1", p5, 10⟩] := by
    unfold pointsSortedFor
    rw [hf]
    apply List.Sorted.insertionSort_eq
    simp [List.sorted_cons]
    omega
  unfold generate_highlights_for_dense_regions
  dsimp only
  rw [show dedupIds (List.map HPoint.block_id
      [⟨"chr1", p0, 10⟩, ⟨"chr1", p1, 10⟩, ⟨"chr1", p2, 80⟩,
       ⟨"chr1", p3, 90⟩, ⟨"chr1", p4, 80⟩, ⟨"chr1", p5, 10⟩]) = ["chr1"] from rfl]
  simp only [List.flatMap_cons, List.flatMap_nil]
  rw [hs]
  rfl

/-- Witness for C7: the amended statement at concrete positions
`100..600`. -/
theorem dense_region_highlighter_run_witness :
    generate_highlights_for_dense_regions
        [⟨"chr1", 100, 10⟩, ⟨"chr1", 200, 10⟩, ⟨"chr1", 300, 80⟩,
         ⟨"chr1", 400, 90⟩, ⟨"chr1", 500, 80⟩, ⟨"chr1", 600, 10⟩] 70
      = [⟨"chr1", 300, 600, "rgba(255, 165, 0, 0.3)"⟩] :=
  dense_region_highlighter_run 100 200 300 400 500 600
    (by decide) (by decide) (by decide) (by decide) (by decide)

/-! ### Heatmap lemmas -/

/-- `listIncrAux` preserves the length. -/
theorem listIncrAux_length : ∀ (l : List Nat) (idx : Int),
    (listIncrAux l idx).length = l.length := by
  intro l
  induction l with
  | nil => intro idx; rfl
  | cons n rest ih =>
    intro idx
    unfold listIncrAux
    split
    · rfl
    · simp [ih]

/-- `listIncr` preserves the length. -/
theorem listIncr_length (l : List Nat) (idx : Int) :
    (listIncr l idx).length = l.length := by
  unfold listIncr
  exact listIncrAux_length l _

/-- Pointwise effect of `listIncrAux` at a natural index. -/
theorem listIncrAux_getD : ∀ (l : List Nat) (k i : Nat),
    (listIncrAux l (k : Int)).getD i 0
      = l.getD i 0 + (if i = k ∧ k < l.length then 1 else 0) := by
  intro l
  induction l with
  | nil => intro k i; simp [listIncrAux]
  | cons n rest ih =>
    intro k i
    cases k with
    | zero =>
      unfold listIncrAux
      rw [if_pos (by simp : ((0 : Nat) : Int) = 0)]
      cases i with
      | zero => simp
      | succ i' => simp
    | succ k' =>
      unfold listIncrAux
      rw [if_neg (by omega)]
      have hk : ((k' + 1 : Nat) : Int) - 1 = (k' : Int) := by push_cast; ring
      rw [hk]
      cases i with
      | zero => simp
      | succ i' =>
        rw [List.getD_cons_succ, List.getD_cons_succ, ih k' i']
        have : (i' = k' ∧ k' < rest.length)
            ↔ (i' + 1 = k' + 1 ∧ k' + 1 < (n :: rest).length) := by
          simp only [List.length_cons]
          omega
        by_cases hc : i' = k' ∧ k' < rest.length
        · rw [if_pos hc, if_pos (this.mp hc)]
        · rw [if_neg hc, if_neg (fun h => hc (this.mpr h))]

/-- Pointwise effect of `listIncr` at a nonnegative index. -/
theorem listIncr_getD (l : List Nat) (idx : Int) (h0 : 0 ≤ idx)
    (i : Nat) (hi : i < l.length) :
    (listIncr l idx).getD i 0 = l.getD i 0 + (if idx = (i : Int) then 1 else 0) := by
  unfold listIncr
  rw [if_neg (by omega)]
  have hcast : idx = ((idx.toNat : Nat) : Int) := by omega
  rw [hcast, listIncrAux_getD l idx.toNat i]
  by_cases h : idx = (i : Int)
  · rw [if_pos (by omega), if_pos (by omega)]
  · rw [if_neg (by omega), if_neg (by omega)]

/-- `heatStep` preserves the length of the bin list. -/
theorem heatStep_length (chrom : String) (binSize : Nat) (bins : List Nat)
    (c : ChordEdge) : (heatStep chrom binSize bins c).length = bins.length := by
  unfold heatStep
  dsimp only
  split <;> split <;> simp [listIncr_length]

/-- The bin index is at most 19. -/
theorem binIdxFor_le (binSize : Nat) (e : ChordEnd) : binIdxFor binSize e ≤ 19 := by
  unfold binIdxFor pyMin
  split <;> omega

/-- The bin index of an endpoint with a nonnegative midpoint is
nonnegative. -/
theorem binIdxFor_nonneg (binSize : Nat) (e : ChordEnd)
    (h : 0 ≤ chordMidpoint e) : 0 ≤ binIdxFor binSize e := by
  unfold binIdxFor pyMin
  have := Int.fdiv_nonneg h (by omega : (0 : Int) ≤ (binSize : Int))
  split <;> omega

/-- Pointwise effect of one chord-counting step. -/
theorem heatStep_getD (chrom : String) (binSize : Nat) (bins : List Nat)
    (c : ChordEdge) (hs : 0 ≤ binIdxFor binSize c.source)
    (ht : 0 ≤ binIdxFor binSize c.target) (i : Nat) (hi : i < bins.length) :
    (heatStep chrom binSize bins c).getD i 0
      = bins.getD i 0
        + (if c.source.id == chrom && binIdxFor binSize c.source == (i : Int)
           then 1 else 0)
        + (if c.target.id == chrom && binIdxFor binSize c.target == (i : Int)
           then 1 else 0) := by
  have h1 : i < (listIncr bins (binIdxFor binSize c.source)).length := by
    rw [listIncr_length]; exact hi
  unfold heatStep
  dsimp only
  cases hsrc : (c.source.id == chrom) <;> cases htgt : (c.target.id == chrom)
  · rw [if_neg (by simp), if_neg (by simp)]
    simp
  · rw [if_pos rfl, if_neg (by simp)]
    rw [listIncr_getD bins _ ht i hi]
    simp
  · rw [if_neg (by simp), if_pos rfl]
    rw [listIncr_getD bins _ hs i hi]
    simp
  · rw [if_pos rfl, if_pos rfl]
    rw [listIncr_getD _ _ ht i h1, listIncr_getD _ _ hs i hi]
    simp

/-- The chord-counting fold preserves the length of the bin list. -/
theorem foldl_heatStep_length (chrom : String) (binSize : Nat) :
    ∀ (cd : List ChordEdge) (bins : List Nat),
      (cd.foldl (heatStep chrom binSize) bins).length = bins.length := by
  intro cd
  induction cd with
  | nil => intro bins; rfl
  | cons c rest ih =>
    intro bins
    rw [List.foldl_cons, ih, heatStep_length]

/-- Pointwise closed form of the chord-counting fold: each slot collects
its initial value plus the number of source-side and target-side endpoint
hits, counted independently. -/
theorem foldl_heatStep_getD (chrom : String) (binSize : Nat) :
    ∀ (cd : List ChordEdge) (bins : List Nat),
      (∀ c ∈ cd, 0 ≤ binIdxFor binSize c.source ∧ 0 ≤ binIdxFor binSize c.target) →
      ∀ i : Nat, i < bins.length →
      (cd.foldl (heatStep chrom binSize) bins).getD i 0
        = bins.getD i 0
          + cd.countP (fun c => c.source.id == chrom
              && binIdxFor binSize c.source == (i : Int))
          + cd.countP (fun c => c.target.id == chrom
              && binIdxFor binSize c.target == (i : Int)) := by
  intro cd
  induction cd with
  | nil => intro bins _ i _; simp
  | cons c rest ih =>
    intro bins hv i hi
    rw [List.foldl_cons]
    rw [ih (heatStep chrom binSize bins c) (fun x hx => hv x (by simp [hx])) i
        (by rw [heatStep_length]; exact hi)]
    rw [heatStep_getD chrom binSize bins c (hv c (by simp)).1 (hv c (by simp)).2 i hi]
    rw [List.countP_cons, List.countP_cons]
    omega

/-- Every slot of a list of zeroes reads zero. -/
theorem getD_replicate_zero : ∀ (n i : Nat), (List.replicate n (0 : Nat)).getD i 0 = 0 := by
  intro n
  induction n with
  | zero => intro i; rfl
  | succ m ih =>
    intro i
    rw [List.replicate_succ]
    cases i with
    | zero => rfl
    | succ i' => rw [List.getD_cons_succ]; exact ih i'

/-- The bin-count list always has twenty slots. -/
theorem heatChromBins_length (cd : List ChordEdge) (chrom : String) (binSize : Nat) :
    (heatChromBins cd chrom binSize).length = 20 := by
  unfold heatChromBins
  rw [foldl_heatStep_length]
  rfl

/-- Extensional description of the bin counts. -/
theorem heatChromBins_getD (cd : List ChordEdge) (chrom : String) (binSize : Nat)
    (hv : ∀ c ∈ cd, 0 ≤ binIdxFor binSize c.source ∧ 0 ≤ binIdxFor binSize c.target)
    (i : Nat) (hi : i < 20) :
    (heatChromBins cd chrom binSize).getD i 0
      = cd.countP (fun c => c.source.id == chrom
          && binIdxFor binSize c.source == (i : Int))
        + cd.countP (fun c => c.target.id == chrom
            && binIdxFor binSize c.target == (i : Int)) := by
  unfold heatChromBins
  rw [foldl_heatStep_getD chrom binSize cd (List.replicate 20 0) hv i (by simpa using hi)]
  rw [getD_replicate_zero]
  omega

/-- Every table entry is at least the mitochondrial length 16569. -/
theorem sizesLookup_lb (k : String) (n : Nat) (h : sizesLookup k = some n) :
    16569 ≤ n := by
  unfold sizesLookup at h
  cases hf : chromSizes.find? (fun p => p.1 == k) with
  | none => rw [hf] at h; simp at h
  | some p =>
    rw [hf] at h
    simp only [Option.map_some'] at h
    have hmem := List.mem_of_find?_eq_some hf
    have hall : ∀ q ∈ chromSizes, 16569 ≤ q.2 := by decide
    have h2 : p.2 = n := Option.some.inj h
    rw [← h2]
    exact hall p hmem

/-- The Registry never reports a length below the mitochondrial 16569. -/
theorem get_chromosome_size_lb (v : PyVal) : 16569 ≤ get_chromosome_size v := by
  cases v with
  | str s =>
    simp only [get_chromosome_size]
    cases hf : (formatsToTry s).find? (fun f => (sizesLookup f).isSome) with
    | none =>
      show 16569 ≤ if pyUpper (normalizeChromName s) = "M" ∨ pyUpper (normalizeChromName s) = "MT"
          then 16569 else 100000000
      split
      · exact le_refl _
      · norm_num
    | some f =>
      have hp := List.find?_some hf
      obtain ⟨n, hn⟩ := Option.isSome_iff_exists.mp hp
      show 16569 ≤ (sizesLookup f).getD 100000000
      rw [hn]
      simpa using sizesLookup_lb f n hn
  | int n => norm_num [get_chromosome_size]
  | pynone => norm_num [get_chromosome_size]

/-- The bin width is always positive. -/
theorem binSize_pos (v : PyVal) : 0 < get_chromosome_size v / 20 :=
  Nat.div_pos (le_trans (by norm_num) (get_chromosome_size_lb v)) (by norm_num)

/-- The initial accumulator never exceeds the maximum fold. -/
theorem le_foldl_max : ∀ (t : List Nat) (acc : Nat), acc ≤ t.foldl max acc := by
  intro t
  induction t with
  | nil => intro acc; exact le_refl _
  | cons a t ih =>
    intro acc
    rw [List.foldl_cons]
    exact le_trans (le_max_left acc a) (ih (max acc a))

/-- Every member of the fold input is bounded by the maximum fold. -/
theorem mem_le_foldl_max : ∀ (t : List Nat) (acc x : Nat), x ∈ t → x ≤ t.foldl max acc := by
  intro t
  induction t with
  | nil => intro acc x hx; cases hx
  | cons a t ih =>
    intro acc x hx
    rw [List.foldl_cons]
    rcases List.mem_cons.mp hx with rfl | hx
    · exact le_trans (le_max_right acc x) (le_foldl_max t (max acc x))
    · exact ih (max acc a) x hx

/-- `listMaxNat` bounds every member of its input. -/
theorem listMaxNat_ge (l : List Nat) (x : Nat) (hx : x ∈ l) : x ≤ listMaxNat l := by
  cases l with
  | nil => cases hx
  | cons h t =>
    rcases List.mem_cons.mp hx with rfl | hx
    · exact le_foldl_max t x
    · exact mem_le_foldl_max t h x hx

/-- Mapping a function of index and entry over `enumFrom` equals mapping
over the index range with a default-read of the entry. -/
theorem enumFrom_map_getD {β : Type} (f : Nat → Nat → β) :
    ∀ (l : List Nat) (n : Nat),
      (List.enumFrom n l).map (fun p => f p.1 p.2)
        = (List.range l.length).map (fun i => f (n + i) (l.getD i 0)) := by
  intro l
  induction l with
  | nil => intro n; rfl
  | cons a t ih =>
    intro n
    rw [List.enumFrom_cons, List.map_cons, ih (n + 1), List.length_cons,
      List.range_succ_eq_map, List.map_cons, List.map_map]
    congr 1
    apply List.map_congr_left
    intro i hi
    simp only [Function.comp_apply]
    congr 1
    omega

/-- Specification vocabulary: source-side endpoint hits of bin `i`. -/
def sourceHits (cd : List ChordEdge) (chrom : String) (binSize : Nat) (i : Nat) : Nat :=
  cd.countP (fun c => c.source.id == chrom && binIdxFor binSize c.source == (i : Int))

/-- Specification vocabulary: target-side endpoint hits of bin `i`. -/
def targetHits (cd : List ChordEdge) (chrom : String) (binSize : Nat) (i : Nat) : Nat :=
  cd.countP (fun c => c.target.id == chrom && binIdxFor binSize c.target == (i : Int))

/-- Specification vocabulary: total endpoint hits of bin `i` (source and
target sides counted independently). -/
def binHits (cd : List ChordEdge) (chrom : String) (binSize : Nat) (i : Nat) : Nat :=
  sourceHits cd chrom binSize i + targetHits cd chrom binSize i

/-- Specification vocabulary: the largest per-bin hit count of one
chromosome. -/
def maxHits (cd : List ChordEdge) (chrom : String) (binSize : Nat) : Nat :=
  listMaxNat ((List.range 20).map (binHits cd chrom binSize))

/-- Building heat points from an enumerated bin list equals building them
from the index range. -/
theorem heatPoints_enum_eq (chrom : String) (binSize : Nat) (maxC : Nat) :
    ∀ (bins : List Nat) (n : Nat),
      (List.enumFrom n bins).map (fun p =>
        ({ block_id := chrom, start := p.1 * binSize, end_ := (p.1 + 1) * binSize,
           value := (p.2 : ℚ) / (maxC : ℚ) } : HeatPoint))
        = (List.range bins.length).map (fun i =>
            { block_id := chrom, start := (n + i) * binSize,
              end_ := (n + i + 1) * binSize,
              value := (bins.getD i 0 : ℚ) / (maxC : ℚ) }) := by
  intro bins
  induction bins with
  | nil => intro n; rfl
  | cons a t ih =>
    intro n
    rw [List.enumFrom_cons, List.map_cons, ih (n + 1), List.length_cons,
      List.range_succ_eq_map, List.map_cons, List.map_map]
    congr 1
    apply List.map_congr_left
    intro i hi
    simp only [Function.comp_apply, List.getD_cons_succ]
    have h1 : n + 1 + i = n + (i + 1) := by omega
    rw [h1]

/-- Closed form of the per-chromosome heatmap block over the index range. -/
theorem heatmapForChrom_eq_range (cd : List ChordEdge) (chrom : String) :
    heatmapForChrom cd chrom
      = (List.range 20).map (fun i =>
          ({ block_id := chrom,
             start := i * (get_chromosome_size (.str chrom) / 20),
             end_ := (i + 1) * (get_chromosome_size (.str chrom) / 20),
             value := ((heatChromBins cd chrom
                 (get_chromosome_size (.str chrom) / 20)).getD i 0 : ℚ)
               / ((if listMaxNat (heatChromBins cd chrom
                     (get_chromosome_size (.str chrom) / 20)) > 0
                   then listMaxNat (heatChromBins cd chrom
                     (get_chromosome_size (.str chrom) / 20))
                   else 1 : Nat) : ℚ) } : HeatPoint)) := by
  unfold heatmapForChrom
  dsimp only
  rw [show (heatChromBins cd chrom (get_chromosome_size (.str chrom) / 20)).enum
      = List.enumFrom 0 (heatChromBins cd chrom (get_chromosome_size (.str chrom) / 20))
      from rfl]
  rw [heatPoints_enum_eq chrom (get_chromosome_size (.str chrom) / 20) _
      (heatChromBins cd chrom (get_chromosome_size (.str chrom) / 20)) 0]
  rw [heatChromBins_length]
  apply List.map_congr_left
  intro i hi
  simp

/-- The fold-built bin list coincides with the extensional hit counts. -/
theorem heatChromBins_eq_rangeMap (cd : List ChordEdge) (chrom : String) (binSize : Nat)
    (hpos : ∀ c ∈ cd, 0 ≤ chordMidpoint c.source ∧ 0 ≤ chordMidpoint c.target) :
    heatChromBins cd chrom binSize
      = (List.range 20).map (binHits cd chrom binSize) := by
  have hv : ∀ c ∈ cd, 0 ≤ binIdxFor binSize c.source ∧ 0 ≤ binIdxFor binSize c.target :=
    fun c hc => ⟨binIdxFor_nonneg binSize c.source (hpos c hc).1,
      binIdxFor_nonneg binSize c.target (hpos c hc).2⟩
  apply List.ext_getElem
  · rw [heatChromBins_length]; simp
  · intro i h1 h2
    rw [List.getElem_map, List.getElem_range]
    have h20 : i < 20 := by rw [heatChromBins_length] at h1; exact h1
    rw [← List.getD_eq_getElem (heatChromBins cd chrom binSize) 0 h1]
    rw [heatChromBins_getD cd chrom binSize hv i h20]
    rfl

/-! ### Claim C8 -/

/-- C8 (amended): for every non-empty chord list, the binner emits, per
selected chromosome, twenty equal-width bins (`i * bin_size` to
`(i+1) * bin_size`), counts chord endpoints per bin with source and
target sides checked independently, and normalizes each bin count by
dividing by the per-chromosome maximum count (not by a min-max
transformation), so every emitted value lies in `[0, 1]`. -/
theorem interaction_heatmap_binning (chromosomes : List String)
    (chord_data : List ChordEdge) (hne : chord_data ≠ [])
    (hpos : ∀ c ∈ chord_data, 0 ≤ chordMidpoint c.source ∧ 0 ≤ chordMidpoint c.target) :
    generate_interaction_heatmap chromosomes chord_data
      = chromosomes.flatMap (heatmapForChrom chord_data)
    ∧ ∀ chrom ∈ chromosomes,
        (heatmapForChrom chord_data chrom
          = (List.range 20).map (fun i =>
              ({ block_id := chrom,
                 start := i * (get_chromosome_size (.str chrom) / 20),
                 end_ := (i + 1) * (get_chromosome_size (.str chrom) / 20),
                 value := (binHits chord_data chrom
                     (get_chromosome_size (.str chrom) / 20) i : ℚ)
                   / ((if maxHits chord_data chrom
                         (get_chromosome_size (.str chrom) / 20) > 0
                       then maxHits chord_data chrom
                         (get_chromosome_size (.str chrom) / 20)
                       else 1 : Nat) : ℚ) } : HeatPoint)))
        ∧ ∀ hp ∈ heatmapForChrom chord_data chrom, 0 ≤ hp.value ∧ hp.value ≤ 1 := by
  have hblock : ∀ chrom : String,
      heatmapForChrom chord_data chrom
        = (List.range 20).map (fun i =>
            ({ block_id := chrom,
               start := i * (get_chromosome_size (.str chrom) / 20),
               end_ := (i + 1) * (get_chromosome_size (.str chrom) / 20),
               value := (binHits chord_data chrom
                   (get_chromosome_size (.str chrom) / 20) i : ℚ)
                 / ((if maxHits chord_data chrom
                       (get_chromosome_size (.str chrom) / 20) > 0
                     then maxHits chord_data chrom
                       (get_chromosome_size (.str chrom) / 20)
                     else 1 : Nat) : ℚ) } : HeatPoint)) := by
    intro chrom
    have hbinseq := heatChromBins_eq_rangeMap chord_data chrom
      (get_chromosome_size (.str chrom) / 20) hpos
    have hclosed := heatmapForChrom_eq_range chord_data chrom
    rw [hbinseq] at hclosed
    rw [show listMaxNat ((List.range 20).map
          (binHits chord_data chrom (get_chromosome_size (.str chrom) / 20)))
        = maxHits chord_data chrom (get_chromosome_size (.str chrom) / 20) from rfl]
      at hclosed
    rw [hclosed]
    apply List.map_congr_left
    intro i hi
    have hi20 : i < 20 := List.mem_range.mp hi
    have hgd : ((List.range 20).map
        (binHits chord_data chrom (get_chromosome_size (.str chrom) / 20))).getD i 0
        = binHits chord_data chrom (get_chromosome_size (.str chrom) / 20) i := by
      rw [List.getD_eq_getElem _ _ (by simpa using hi20), List.getElem_map,
        List.getElem_range]
    rw [hgd]
  constructor
  · unfold generate_interaction_heatmap
    rw [if_neg (fun h => hne (List.isEmpty_iff.mp h))]
  · intro chrom hchrom
    refine ⟨hblock chrom, ?_⟩
    intro hp hhp
    rw [hblock chrom] at hhp
    obtain ⟨i, hi, rfl⟩ := List.mem_map.mp hhp
    dsimp only
    constructor
    · exact div_nonneg (Nat.cast_nonneg _) (Nat.cast_nonneg _)
    · have hcnt : binHits chord_data chrom (get_chromosome_size (.str chrom) / 20) i
          ≤ maxHits chord_data chrom (get_chromosome_size (.str chrom) / 20) := by
        apply listMaxNat_ge
        apply List.mem_map.mpr
        exact ⟨i, hi, rfl⟩
      by_cases hM : maxHits chord_data chrom (get_chromosome_size (.str chrom) / 20) > 0
      · rw [if_pos hM]
        rw [div_le_one (by exact_mod_cast hM)]
        exact_mod_cast hcnt
      · rw [if_neg hM]
        have hz : binHits chord_data chrom (get_chromosome_size (.str chrom) / 20) i = 0 := by
          omega
        rw [hz]
        norm_num

/-- A concrete chord used to instantiate the heatmap theorem. -/
def heatWitnessChord : ChordEdge :=
  { source := ⟨"chr1", 0, 100, "G1"⟩, target := ⟨"chr2", 0, 100, "G2"⟩,
    color := "#9ECEEB", value := 1, source_gene := "G1", target_gene := "G2" }

/-- Witness for C8: the binner on one concrete chord over `chr1`. -/
theorem interaction_heatmap_binning_witness :
    generate_interaction_heatmap ["chr1"] [heatWitnessChord]
      = (["chr1"] : List String).flatMap (heatmapForChrom [heatWitnessChord])
    ∧ ∀ chrom ∈ (["chr1"] : List String),
        (heatmapForChrom [heatWitnessChord] chrom
          = (List.range 20).map (fun i =>
              ({ block_id := chrom,
                 start := i * (get_chromosome_size (.str chrom) / 20),
                 end_ := (i + 1) * (get_chromosome_size (.str chrom) / 20),
                 value := (binHits [heatWitnessChord] chrom
                     (get_chromosome_size (.str chrom) / 20) i : ℚ)
                   / ((if maxHits [heatWitnessChord] chrom
                         (get_chromosome_size (.str chrom) / 20) > 0
                       then maxHits [heatWitnessChord] chrom
                         (get_chromosome_size (.str chrom) / 20)
                       else 1 : Nat) : ℚ) } : HeatPoint)))
        ∧ ∀ hp ∈ heatmapForChrom [heatWitnessChord] chrom,
            0 ≤ hp.value ∧ hp.value ≤ 1 :=
  interaction_heatmap_binning ["chr1"] [heatWitnessChord] (by decide) (by decide)

/-- One endpoint used by the normalization counterexample. -/
def heatCexChord (p : Int) : ChordEdge :=
  { source := ⟨"chr1", p, p, "S"⟩, target := ⟨"chrQ", 0, 0, "T"⟩, color := "",
    value := 1, source_gene := "S", target_gene := "T" }

/-- Twenty chords hitting each bin of `chr1` once, plus one extra hit in
bin 0, so every bin count is positive (min 1, max 2). -/
def heatCexChords : List ChordEdge :=
  ((List.range 20).map (fun j => heatCexChord ((j : Int) * 12447821))) ++ [heatCexChord 0]

/-- Counterexample for C8 as stated: with every bin of `chr1` hit at least
once, the code's bin-1 value is `1/2` (count divided by the maximum),
whereas min-max normalization of the same counts yields `0` there. -/
theorem interaction_heatmap_minmax_cex :
    ((heatmapForChrom heatCexChords "chr1").getD 1 ⟨"", 0, 0, 0⟩).value = 1/2
    ∧ (minMaxNormalize (heatChromBins heatCexChords "chr1"
        (get_chromosome_size (.str "chr1") / 20))).getD 1 0 = 0
    ∧ ((1 : ℚ)/2) ≠ 0 := by
  have hbins : heatChromBins heatCexChords "chr1" (get_chromosome_size (.str "chr1") / 20)
      = 2 :: List.replicate 19 1 := by decide
  refine ⟨?_, ?_, by norm_num⟩
  · have h1 : ((heatmapForChrom heatCexChords "chr1").getD 1 ⟨"", 0, 0, 0⟩).value
        = ((1 : Nat) : ℚ) / ((2 : Nat) : ℚ) := by
      unfold heatmapForChrom
      dsimp only
      rw [hbins]
      rfl
    rw [h1]
    norm_num
  · rw [hbins]
    have h2 : (minMaxNormalize (2 :: List.replicate 19 1)).getD 1 0
        = (((1 : Nat) : ℚ) - ((1 : Nat) : ℚ)) / (((2 : Nat) : ℚ) - ((1 : Nat) : ℚ)) := by
      rfl
    rw [h2]
    norm_num
